import Mathlib

set_option maxHeartbeats 1000000

namespace FrameStorage

/-- JSON-representable scalar values carried in envelope fields.  The wire
format of the channel is JSON, and the values the protocol moves around are
null, strings and numbers. -/
inductive JVal where
  | null : JVal
  | str : String → JVal
  | num : Int → JVal
deriving DecidableEq, Repr

/-- The wire envelope exchanged between the client and the server frame.
A field of value none models a JavaScript field that is absent (undefined
after JSON round-trip); some JVal.null models an explicit null. -/
structure Envelope where
  action : String
  ref : String
  key : Option String
  value : Option JVal
  message : Option String
deriving DecidableEq, Repr

/-- A datum arriving on the message event: either the serialization of an
envelope (JSON.parse succeeds and yields the envelope) or a string on which
JSON.parse throws. -/
inductive WireData where
  | env : Envelope → WireData
  | malformed : String → WireData
deriving DecidableEq, Repr

/-- JSON.parse applied to incoming event data: total on well-formed
envelopes, failing (none) exactly on malformed data. -/
def parseWire : WireData → Option Envelope
  | WireData.env e => some e
  | WireData.malformed _ => none

/-- The error message carried by the exception JSON.parse throws on
malformed data. -/
def jsonParseError : String := "SyntaxError: Unexpected token"

/-- A message given to postMessage: the receiving window, the envelope and
the target origin it is addressed to. -/
structure Sent where
  target : Nat
  env : Envelope
  origin : String
deriving DecidableEq, Repr

/-- One observed invocation of a registered completion handler: the handler
identity and the two arguments (error, result) it receives.  none models an
undefined argument, some JVal.null an explicit null argument. -/
structure Invocation where
  handler : Nat
  a1 : Option JVal
  a2 : Option JVal
deriving DecidableEq, Repr

/-- The process-wide callback registry FrameStorage._callbacks, mapping a
correlation ref to the identity of the registered handler. -/
abbrev Registry := List (String × Nat)

/-- Property lookup on the callbacks object. -/
def lookupCb : Registry → String → Option Nat
  | [], _ => none
  | p :: rest, ref => if p.1 == ref then some p.2 else lookupCb rest ref

/-- The delete operator applied to the callbacks object. -/
def deleteCb : Registry → String → Registry
  | [], _ => []
  | p :: rest, ref => if p.1 == ref then deleteCb rest ref else p :: deleteCb rest ref

/-- Property assignment on the callbacks object.  A JavaScript object holds
at most one binding per key, so assignment replaces any previous binding;
only lookupCb and deleteCb observe the registry, so the enumeration order
of the association list is not observable. -/
def setCb (r : Registry) (ref : String) (h : Nat) : Registry :=
  (ref, h) :: deleteCb r ref

/-- The storage backend the server dispatcher calls (localStorage in the
source).  Each operation may fail with a message, matching the try/catch
blocks around every backend call in initChannel.  The backend itself is an
external collaborator, not part of the repository source. -/
structure StorageOps (σ : Type) where
  getItem : σ → Option String → Except String (Option JVal)
  setItem : σ → Option String → Option JVal → Except String σ
  removeItem : σ → Option String → Except String σ
  clearOp : σ → Except String σ
  lengthOp : σ → Except String Nat
  keyOp : σ → Option JVal → Except String (Option String)

/-- A possibly absent value as it appears after being passed to
sendSuccess: an absent backend result becomes an explicit null. -/
def jvalOrNull (o : Option JVal) : JVal := o.getD JVal.null

/-- Everything the server dispatcher produces for one accepted message: the
backend state afterwards, the response envelope if any, the console logs,
and the names of the backend operations it invoked. -/
structure DispatchOut (σ : Type) where
  state : σ
  resp : Option Envelope
  logs : List String
  backendCalls : List String
deriving Repr

/-- The envelope sendSuccess posts back: action frameStorageSuccess, the
ref and key of the request echoed, and the given value. -/
def successEnv (m : Envelope) (v : Option JVal) : Envelope :=
  { action := "frameStorageSuccess", ref := m.ref, key := m.key, value := v, message := none }

/-- The envelope sendError posts back: action frameStorageError, the ref
and key of the request echoed, and the message of the caught error. -/
def errorEnv (m : Envelope) (e : String) : Envelope :=
  { action := "frameStorageError", ref := m.ref, key := m.key, value := none, message := some e }

/-- The switch on message.action inside the initChannel listener: each of
the six request actions runs the backend operation inside try/catch and
answers with a success or error envelope; an unknown action logs and
produces no response. -/
def dispatch (ops : StorageOps σ) (st : σ) (m : Envelope) : DispatchOut σ :=
  if m.action == "getItem" then
    match ops.getItem st m.key with
    | Except.ok v => ⟨st, some (successEnv m (some (jvalOrNull v))), [], ["getItem"]⟩
    | Except.error e => ⟨st, some (errorEnv m e), [], ["getItem"]⟩
  else if m.action == "setItem" then
    match ops.setItem st m.key m.value with
    | Except.ok st1 => ⟨st1, some (successEnv m (some JVal.null)), [], ["setItem"]⟩
    | Except.error e => ⟨st, some (errorEnv m e), [], ["setItem"]⟩
  else if m.action == "removeItem" then
    match ops.removeItem st m.key with
    | Except.ok st1 => ⟨st1, some (successEnv m (some JVal.null)), [], ["removeItem"]⟩
    | Except.error e => ⟨st, some (errorEnv m e), [], ["removeItem"]⟩
  else if m.action == "clear" then
    match ops.clearOp st with
    | Except.ok st1 => ⟨st1, some (successEnv m none), [], ["clear"]⟩
    | Except.error e => ⟨st, some (errorEnv m e), [], ["clear"]⟩
  else if m.action == "length" then
    match ops.lengthOp st with
    | Except.ok n => ⟨st, some (successEnv m (some (JVal.num (Int.ofNat n)))), [], ["length"]⟩
    | Except.error e => ⟨st, some (errorEnv m e), [], ["length"]⟩
  else if m.action == "key" then
    match ops.keyOp st m.value with
    | Except.ok nm => ⟨st, some (successEnv m (some (jvalOrNull (nm.map JVal.str)))), [], ["key"]⟩
    | Except.error e => ⟨st, some (errorEnv m e), [], ["key"]⟩
  else
    ⟨st, none, ["Unknown action"], []⟩

/-- The defaulting of the clientOrigin parameter of initChannel: a null or
undefined argument becomes the wildcard. -/
def initOrigin (o : Option String) : String := o.getD "*"

/-- The origin test of the initChannel listener, phrased positively: the
listener proceeds unless the expected origin is concrete and differs from
the event origin. -/
def originAccepts (clientOrigin evOrigin : String) : Bool :=
  clientOrigin == "*" || evOrigin == clientOrigin

/-- The message listener installed by initChannel: rejects a foreign origin
with a logged error, then parses the event data (JSON.parse is not guarded,
so a parse failure is an exception escaping the listener, modelled as
Except.error), then dispatches and posts the response, if any, back to the
event source addressed to the expected client origin. -/
def serverListener (ops : StorageOps σ) (clientOrigin : String) (st : σ)
    (evOrigin : String) (evSource : Nat) (evData : WireData) :
    Except String (σ × List Sent × List String × List String) :=
  if clientOrigin != "*" && evOrigin != clientOrigin then
    Except.ok (st, [], ["Origin mismatch"], [])
  else
    match parseWire evData with
    | none => Except.error jsonParseError
    | some m =>
        let d := dispatch ops st m
        Except.ok (d.state,
          (match d.resp with
           | some r => [⟨evSource, r, clientOrigin⟩]
           | none => []),
          d.logs, d.backendCalls)

/-- The client-side message listener handleMessageEvent: only messages
whose source is the channel target window are handled; the data is parsed
(JSON.parse again unguarded), the registered callback for the ref (or a
no-op stub when none is registered) is invoked according to the action, and
the registry entry for the ref is deleted. -/
def handleMessageEvent (tw : Nat) (cbs : Registry) (evSource : Nat) (evData : WireData) :
    Except String (Registry × List Invocation × List String) :=
  if evSource == tw then
    match parseWire evData with
    | none => Except.error jsonParseError
    | some m =>
        let inv : List Invocation :=
          match lookupCb cbs m.ref with
          | some h =>
              if m.action == "frameStorageSuccess" then
                [⟨h, some JVal.null, m.value⟩]
              else if m.action == "frameStorageError" then
                [⟨h, m.message.map JVal.str, some JVal.null⟩]
              else []
          | none => []
        let lgs : List String :=
          if m.action == "frameStorageSuccess" || m.action == "frameStorageError" then []
          else ["Unknown action"]
        Except.ok (deleteCb cbs m.ref, inv, lgs)
  else
    Except.ok (cbs, [], [])

/-- The save helper: registers the callback when one is supplied and posts
a setItem envelope. -/
def save (tw : Nat) (origin : String) (ref : String) (k : String) (v : Option JVal)
    (cb : Option Nat) (reg : Registry) : Registry × Sent × List String :=
  ((match cb with
    | some h => setCb reg ref h
    | none => reg),
   ⟨tw, { action := "setItem", ref := ref, key := some k, value := v, message := none }, origin⟩,
   [])

/-- The load helper: registers the callback when one is supplied, warning
otherwise, and posts a getItem envelope. -/
def load (tw : Nat) (origin : String) (ref : String) (k : String)
    (cb : Option Nat) (reg : Registry) : Registry × Sent × List String :=
  ((match cb with
    | some h => setCb reg ref h
    | none => reg),
   ⟨tw, { action := "getItem", ref := ref, key := some k, value := none, message := none }, origin⟩,
   (match cb with
    | some _ => []
    | none => ["FrameStorage.getItem: Missing callback function"]))

/-- The empty helper behind clear: registers the callback when one is
supplied, warning otherwise, and posts a clear envelope. -/
def empty (tw : Nat) (origin : String) (ref : String)
    (cb : Option Nat) (reg : Registry) : Registry × Sent × List String :=
  ((match cb with
    | some h => setCb reg ref h
    | none => reg),
   ⟨tw, { action := "clear", ref := ref, key := none, value := none, message := none }, origin⟩,
   (match cb with
    | some _ => []
    | none => ["FrameStorage.clear: Missing callback function"]))

/-- The count helper behind length: registers the callback when one is
supplied, warning otherwise, and posts a length envelope. -/
def count (tw : Nat) (origin : String) (ref : String)
    (cb : Option Nat) (reg : Registry) : Registry × Sent × List String :=
  ((match cb with
    | some h => setCb reg ref h
    | none => reg),
   ⟨tw, { action := "length", ref := ref, key := none, value := none, message := none }, origin⟩,
   (match cb with
    | some _ => []
    | none => ["FrameStorage.length: Missing callback function"]))

/-- The key helper: registers the callback when one is supplied and posts a
key envelope with the requested index as its value. -/
def keyReq (tw : Nat) (origin : String) (ref : String) (i : Int)
    (cb : Option Nat) (reg : Registry) : Registry × Sent × List String :=
  ((match cb with
    | some h => setCb reg ref h
    | none => reg),
   ⟨tw, { action := "key", ref := ref, key := none, value := some (JVal.num i), message := none }, origin⟩,
   [])

/-- One entry of the client buffer: the operation name together with the
arguments the public method was called with, exactly what
buffer.push stores before the transport is ready. -/
inductive QueuedOp where
  | qload : String → Option Nat → QueuedOp
  | qsave : String → Option JVal → Option Nat → QueuedOp
  | qempty : Option Nat → QueuedOp
  | qcount : Option Nat → QueuedOp
  | qkey : Int → Option Nat → QueuedOp
deriving DecidableEq, Repr

/-- The data a bound dispatcher closure captured at onload time: the iframe
content window and the pinned channel origin. -/
structure BoundCtx where
  tw : Nat
  origin : String
deriving DecidableEq, Repr

/-- The mutable state of one FrameStorage client instance: the DOM root and
whether it is still attached to the document body, the captured target
window, whether the message listener is attached, the five bound dispatcher
closures, the operation buffer, a counter feeding makeGuid, and the pinned
channel origin computed at construction. -/
structure ChannelState where
  rootPresent : Bool
  domRootAttached : Bool
  targetWindow : Option Nat
  listenerAttached : Bool
  bSave : Option BoundCtx
  bLoad : Option BoundCtx
  bEmpty : Option BoundCtx
  bCount : Option BoundCtx
  bKey : Option BoundCtx
  buffer : List QueuedOp
  guidCtr : Nat
  channelOrigin : String
deriving DecidableEq, Repr

/-- The events a client instance reacts to: the five public operations, the
iframe onload (transport readiness) and destroy. -/
inductive ApiCall where
  | getItem : String → Option Nat → ApiCall
  | setItem : String → Option JVal → Option Nat → ApiCall
  | clearC : Option Nat → ApiCall
  | lengthC : Option Nat → ApiCall
  | keyC : Int → Option Nat → ApiCall
  | onload : Nat → ApiCall
  | destroy : ApiCall
deriving DecidableEq, Repr

/-- The correlation id produced by the n-th call to makeGuid, with the
random part abstracted to a counter (ids are only required to be unique). -/
def guidName (n : Nat) : String := "c" ++ toString n

/-- The public method call a queued entry was created by. -/
def opCall : QueuedOp → ApiCall
  | QueuedOp.qload k cb => ApiCall.getItem k cb
  | QueuedOp.qsave k v cb => ApiCall.setItem k v cb
  | QueuedOp.qempty cb => ApiCall.clearC cb
  | QueuedOp.qcount cb => ApiCall.lengthC cb
  | QueuedOp.qkey i cb => ApiCall.keyC i cb

/-- The switch inside the buffer drain: applies the bound dispatcher that
corresponds to the stored operation name to the stored arguments. -/
def dispatchOp (ctx : BoundCtx) (ref : String) (o : QueuedOp) (reg : Registry) :
    Registry × Sent × List String :=
  match o with
  | QueuedOp.qload k cb => load ctx.tw ctx.origin ref k cb reg
  | QueuedOp.qsave k v cb => save ctx.tw ctx.origin ref k v cb reg
  | QueuedOp.qempty cb => empty ctx.tw ctx.origin ref cb reg
  | QueuedOp.qcount cb => count ctx.tw ctx.origin ref cb reg
  | QueuedOp.qkey i cb => keyReq ctx.tw ctx.origin ref i cb reg

/-- The buffer.forEach loop of the onload handler: dispatches every queued
entry in order, threading the registry and the guid counter. -/
def drain (ctx : BoundCtx) : Nat → Registry → List QueuedOp →
    Nat × Registry × List Sent × List String
  | ctr, reg, [] => (ctr, reg, [], [])
  | ctr, reg, o :: rest =>
      let d := dispatchOp ctx (guidName ctr) o reg
      let y := drain ctx (ctr + 1) d.1 rest
      (y.1, y.2.1, d.2.1 :: y.2.2.1, d.2.2 ++ y.2.2.2)

/-- The state destroy leaves behind when it does not throw: the root
removal block clears the root, the window block detaches the listener and
drops the window when one is held, and the save and load dispatchers are
nulled. -/
def destroyedState (s : ChannelState) : ChannelState :=
  let s1 := if s.rootPresent then
      { s with rootPresent := false, domRootAttached := false }
    else s
  let s2 := if s1.targetWindow.isSome then
      { s1 with listenerAttached := false, targetWindow := none }
    else s1
  { s2 with bSave := none, bLoad := none }

/-- One client event processed against the channel state: public operations
either apply the corresponding bound dispatcher (when it is set) or push a
buffer entry; onload captures the window, binds the dispatchers, attaches
the listener and drains the buffer; destroy removes the DOM root (the one
place that can throw, when the root is no longer attached), detaches the
listener when a target window is held, and nulls the save and load
dispatchers. -/
def step (s : ChannelState) (reg : Registry) :
    ApiCall → Except String (ChannelState × Registry × List Sent × List String)
  | ApiCall.getItem k cb =>
      match s.bLoad with
      | some ctx =>
          let d := load ctx.tw ctx.origin (guidName s.guidCtr) k cb reg
          Except.ok ({ s with guidCtr := s.guidCtr + 1 }, d.1, [d.2.1], d.2.2)
      | none =>
          Except.ok ({ s with buffer := s.buffer ++ [QueuedOp.qload k cb] }, reg, [], [])
  | ApiCall.setItem k v cb =>
      match s.bSave with
      | some ctx =>
          let d := save ctx.tw ctx.origin (guidName s.guidCtr) k v cb reg
          Except.ok ({ s with guidCtr := s.guidCtr + 1 }, d.1, [d.2.1], d.2.2)
      | none =>
          Except.ok ({ s with buffer := s.buffer ++ [QueuedOp.qsave k v cb] }, reg, [], [])
  | ApiCall.clearC cb =>
      match s.bEmpty with
      | some ctx =>
          let d := empty ctx.tw ctx.origin (guidName s.guidCtr) cb reg
          Except.ok ({ s with guidCtr := s.guidCtr + 1 }, d.1, [d.2.1], d.2.2)
      | none =>
          Except.ok ({ s with buffer := s.buffer ++ [QueuedOp.qempty cb] }, reg, [], [])
  | ApiCall.lengthC cb =>
      match s.bCount with
      | some ctx =>
          let d := count ctx.tw ctx.origin (guidName s.guidCtr) cb reg
          Except.ok ({ s with guidCtr := s.guidCtr + 1 }, d.1, [d.2.1], d.2.2)
      | none =>
          Except.ok ({ s with buffer := s.buffer ++ [QueuedOp.qcount cb] }, reg, [], [])
  | ApiCall.keyC i cb =>
      match s.bKey with
      | some ctx =>
          let d := keyReq ctx.tw ctx.origin (guidName s.guidCtr) i cb reg
          Except.ok ({ s with guidCtr := s.guidCtr + 1 }, d.1, [d.2.1], d.2.2)
      | none =>
          Except.ok ({ s with buffer := s.buffer ++ [QueuedOp.qkey i cb] }, reg, [], [])
  | ApiCall.onload w =>
      let ctx : BoundCtx := ⟨w, s.channelOrigin⟩
      let d := drain ctx s.guidCtr reg s.buffer
      let s1 := { s with
        targetWindow := some w, listenerAttached := true,
        bSave := some ctx, bLoad := some ctx, bEmpty := some ctx,
        bCount := some ctx, bKey := some ctx,
        buffer := [], guidCtr := d.1 }
      Except.ok (s1, d.2.1, d.2.2.1, d.2.2.2)
  | ApiCall.destroy =>
      if s.rootPresent && !s.domRootAttached then
        Except.error "NotFoundError"
      else
        Except.ok (destroyedState s, reg, [], [])

/-- A sequence of client events processed in order, concatenating the sent
messages and logs. -/
def runCalls : ChannelState → Registry → List ApiCall →
    Except String (ChannelState × Registry × List Sent × List String)
  | s, reg, [] => Except.ok (s, reg, [], [])
  | s, reg, c :: cs =>
      match step s reg c with
      | Except.error e => Except.error e
      | Except.ok (s1, reg1, ms, lgs) =>
          match runCalls s1 reg1 cs with
          | Except.error e => Except.error e
          | Except.ok (s2, reg2, ms2, lgs2) => Except.ok (s2, reg2, ms ++ ms2, lgs ++ lgs2)

/-- Whether a character belongs to the host character class of the origin
regular expression, compared case-insensitively. -/
def originChar (c : Char) : Bool :=
  (('a' ≤ c.toLower) && (c.toLower ≤ 'z')) || (('0' ≤ c) && (c ≤ '9')) ||
    c == '-' || c == '.' || c == ':' || c == '@'

/-- Case-insensitive literal matching: returns the rest of the input when
it starts with the given literal, compared ignoring case. -/
def ciDrop : List Char → List Char → Option (List Char)
  | [], s => some s
  | _ :: _, [] => none
  | p :: ps, c :: cs => if c.toLower == p.toLower then ciDrop ps cs else none

/-- The first capture group of the channelUrl origin regular expression: an
http or https scheme (case-insensitive) followed by one or more host
characters, taken verbatim from the input. -/
def matchOriginList (s : List Char) : Option (List Char) :=
  match ciDrop "https://".toList s with
  | some rest =>
      let host := rest.takeWhile originChar
      if host.isEmpty then none else some (s.take 8 ++ host)
  | none =>
      match ciDrop "http://".toList s with
      | some rest =>
          let host := rest.takeWhile originChar
          if host.isEmpty then none else some (s.take 7 ++ host)
      | none => none

/-- The origin captured from a channel url, if the url matches the
absolute http or https prefix pattern. -/
def matchChannelOrigin (url : String) : Option String :=
  (matchOriginList url.toList).map (fun cs => String.mk cs)

/-- The pinned channel origin of a client instance: the capture from the
channel url, or the own page origin when the url does not match. -/
def channelOriginOf (pageOrigin url : String) : String :=
  (matchChannelOrigin url).getD pageOrigin

/-- The state of a freshly constructed client instance: root inserted into
the document, no target window yet, no bound dispatchers, empty buffer, and
the channel origin pinned from the channel url. -/
def initState (pageOrigin url : String) : ChannelState :=
  { rootPresent := true, domRootAttached := true, targetWindow := none,
    listenerAttached := false, bSave := none, bLoad := none, bEmpty := none,
    bCount := none, bKey := none, buffer := [], guidCtr := 0,
    channelOrigin := channelOriginOf pageOrigin url }

/-- Modelled from the spec: the storage backend state, the external
key-value store of section 6 that the dispatcher calls.  Entries are kept
in first-insertion order; keys are carried exactly as the dispatcher passes
them. -/
abbrev LSStore := List (Option String × JVal)

/-- Modelled from the spec: backend set, replacing the value of an existing
key in place and appending a new key at the end. -/
def lsSet : LSStore → Option String → JVal → LSStore
  | [], k, v => [(k, v)]
  | (k1, v1) :: rest, k, v =>
      if k1 == k then (k, v) :: rest else (k1, v1) :: lsSet rest k v

/-- Modelled from the spec: backend get, the stored value or none when the
key is absent. -/
def lsGet : LSStore → Option String → Option JVal
  | [], _ => none
  | p :: rest, k => if p.1 == k then some p.2 else lsGet rest k

/-- Modelled from the spec: backend remove. -/
def lsRemove : LSStore → Option String → LSStore
  | [], _ => []
  | p :: rest, k => if p.1 == k then lsRemove rest k else p :: lsRemove rest k

/-- Modelled from the spec: backend keyAt, the name of the entry at the
given ordinal, or none when the index is not a number in range. -/
def lsKeyAt (st : LSStore) (v : Option JVal) : Option String :=
  match v with
  | some (JVal.num i) =>
      if 0 ≤ i then
        match st.get? i.toNat with
        | some p => p.1
        | none => none
      else none
  | _ => none

/-- Modelled from the spec: a storage backend whose operations all succeed,
over the insertion-ordered store. -/
def lsOps : StorageOps LSStore where
  getItem := fun st k => Except.ok (lsGet st k)
  setItem := fun st k v => Except.ok (lsSet st k (jvalOrNull v))
  removeItem := fun st k => Except.ok (lsRemove st k)
  clearOp := fun _ => Except.ok []
  lengthOp := fun st => Except.ok st.length
  keyOp := fun st v => Except.ok (lsKeyAt st v)

/-- Modelled from the spec: a storage backend whose every operation fails
with the given message (section 6 allows each backend operation to fail,
for example on quota or security errors). -/
def failingOps (msg : String) : StorageOps Unit where
  getItem := fun _ _ => Except.error msg
  setItem := fun _ _ _ => Except.error msg
  removeItem := fun _ _ => Except.error msg
  clearOp := fun _ => Except.error msg
  lengthOp := fun _ => Except.error msg
  keyOp := fun _ _ => Except.error msg

theorem lookupCb_setCb_self (r : Registry) (ref : String) (h : Nat) :
    lookupCb (setCb r ref h) ref = some h := by
  simp [setCb, lookupCb]

theorem lookupCb_deleteCb_self (r : Registry) (ref : String) :
    lookupCb (deleteCb r ref) ref = none := by
  induction r with
  | nil => rfl
  | cons p rest ih =>
      by_cases hp : p.1 = ref
      · simpa [deleteCb, hp] using ih
      · simpa [deleteCb, lookupCb, hp] using ih

theorem lookupCb_deleteCb_ne (r : Registry) (x y : String) (h : y ≠ x) :
    lookupCb (deleteCb r x) y = lookupCb r y := by
  induction r with
  | nil => rfl
  | cons p rest ih =>
      by_cases hp : p.1 = x
      · simpa [deleteCb, lookupCb, hp, h.symm] using ih
      · by_cases hpy : p.1 = y
        · simp [deleteCb, lookupCb, hp, hpy, h]
        · simpa [deleteCb, lookupCb, hp, hpy, h] using ih

theorem lookupCb_setCb_ne (r : Registry) (x y : String) (h : Nat) (hne : y ≠ x) :
    lookupCb (setCb r x h) y = lookupCb r y := by
  have h2 : (x == y) = false := by
    refine beq_eq_false_iff_ne.mpr ?_
    intro hc
    exact hne hc.symm
  simp [setCb, lookupCb, h2, lookupCb_deleteCb_ne r x y hne]

theorem lsGet_lsSet_self (st : LSStore) (k : Option String) (v : JVal) :
    lsGet (lsSet st k v) k = some v := by
  induction st with
  | nil => simp [lsSet, lsGet]
  | cons p rest ih =>
      by_cases hp : p.1 = k
      · simp [lsSet, lsGet, hp]
      · simpa [lsSet, lsGet, hp] using ih

theorem origin_guard_false (co evO : String) (hacc : originAccepts co evO = true) :
    (co != "*" && evO != co) = false := by
  simp only [originAccepts, Bool.or_eq_true, beq_iff_eq] at hacc
  rcases hacc with h | h <;> simp [h]

theorem origin_guard_true (co evO : String) (hacc : originAccepts co evO = false) :
    (co != "*" && evO != co) = true := by
  simp only [originAccepts, Bool.or_eq_false_iff, beq_eq_false_iff_ne] at hacc
  simp [hacc.1, hacc.2]

/-- A success response envelope whose ref is not registered, used to
exercise the unregistered-ref path of the client listener. -/
def c2respEnv : Envelope :=
  { action := "frameStorageSuccess", ref := "r", key := none,
    value := some (JVal.str "x"), message := none }

/-- Claim C2, counterexample: handling a success response whose ref is not
in the registry invokes no handler and leaves the registry unchanged, but
the log list is empty, while the claim asserts that a warning is logged. -/
theorem c2_counterexample :
    handleMessageEvent 1 [("q", 5)] 1 (WireData.env c2respEnv) =
      Except.ok ([("q", 5)], [], []) := by rfl

/-- Claim C2, amended: for every response envelope whose ref is not in the
callback registry, handling it is a silent no-op: no handler is invoked
and, for a success or error action, nothing at all is logged (the code
emits no warning); and a ref, once handled and its entry removed, is never
resolved a second time: handling a duplicate of the same message invokes no
handler. -/
theorem c2_unregistered_ref_noop (tw src : Nat) (cbs : Registry) (d : WireData)
    (m : Envelope) (cbs1 : Registry) (i1 : List Invocation) (l1 : List String)
    (hp : parseWire d = some m)
    (hr : handleMessageEvent tw cbs src d = Except.ok (cbs1, i1, l1)) :
    (lookupCb cbs m.ref = none → i1 = [] ∧
      ((m.action = "frameStorageSuccess" ∨ m.action = "frameStorageError") → l1 = [])) ∧
    (∀ cbs2 i2 l2, handleMessageEvent tw cbs1 src d = Except.ok (cbs2, i2, l2) → i2 = []) := by
  simp only [handleMessageEvent, hp] at hr
  split at hr
  · next hsrc =>
      simp only [Except.ok.injEq, Prod.mk.injEq] at hr
      obtain ⟨hc, hi, hl⟩ := hr
      constructor
      · intro hnone
        constructor
        · rw [← hi, hnone]
        · intro hact
          rw [← hl]
          rcases hact with ha | ha <;> simp [ha]
      · intro cbs2 i2 l2 h2
        simp only [handleMessageEvent, hp] at h2
        rw [if_pos hsrc] at h2
        simp only [Except.ok.injEq, Prod.mk.injEq] at h2
        rw [← h2.2.1, ← hc, lookupCb_deleteCb_self]
  · simp only [Except.ok.injEq, Prod.mk.injEq] at hr
    obtain ⟨hc, hi, hl⟩ := hr
    constructor
    · intro _
      constructor
      · rw [← hi]
      · intro _
        rw [← hl]
    · intro cbs2 i2 l2 h2
      simp only [handleMessageEvent, hp] at h2
      next hsrc =>
        rw [if_neg hsrc] at h2
        simp only [Except.ok.injEq, Prod.mk.injEq] at h2
        rw [← h2.2.1]

/-- Witness for the amended claim C2 at a concrete input. -/
theorem c2_unregistered_ref_noop_witness :
    (lookupCb [("q", 5)] c2respEnv.ref = none → ([] : List Invocation) = [] ∧
      ((c2respEnv.action = "frameStorageSuccess" ∨ c2respEnv.action = "frameStorageError") →
        ([] : List String) = [])) ∧
    (∀ cbs2 i2 l2, handleMessageEvent 1 [("q", 5)] 1 (WireData.env c2respEnv) =
        Except.ok (cbs2, i2, l2) → i2 = []) :=
  c2_unregistered_ref_noop 1 1 [("q", 5)] (WireData.env c2respEnv) c2respEnv
    [("q", 5)] [] [] rfl rfl

/-- Claim C3: the server accepts any origin when the expected origin is the
wildcard (the default when initChannel is called without an argument);
against a concrete expected origin, a message is accepted iff the incoming
origin is exactly equal; on a mismatch the listener logs an error and
discards the message, producing no response, no backend call and no state
change. -/
theorem c3_origin_validation (σ : Type) (ops : StorageOps σ) (st : σ)
    (c evO : String) (evSrc : Nat) (d : WireData) :
    initOrigin none = "*" ∧
    originAccepts "*" evO = true ∧
    (c ≠ "*" → (originAccepts c evO = true ↔ evO = c)) ∧
    (originAccepts c evO = false →
      serverListener ops c st evO evSrc d = Except.ok (st, [], ["Origin mismatch"], [])) := by
  refine ⟨rfl, by simp [originAccepts], ?_, ?_⟩
  · intro hc
    have hb : (c == "*") = false := beq_eq_false_iff_ne.mpr hc
    simp [originAccepts, hb]
  · intro hacc
    simp [serverListener, origin_guard_true c evO hacc]

/-- Witness for claim C3 at concrete origins. -/
theorem c3_origin_validation_witness :
    initOrigin none = "*" ∧
    originAccepts "*" "https://evil.example" = true ∧
    (originAccepts "https://trusted.example" "https://evil.example" = true ↔
      "https://evil.example" = "https://trusted.example") ∧
    serverListener lsOps "https://trusted.example" ([] : LSStore) "https://evil.example" 5
      (WireData.env { action := "getItem", ref := "r", key := some "k",
                      value := none, message := none }) =
      Except.ok ([], [], ["Origin mismatch"], []) := by
  have h := c3_origin_validation LSStore lsOps [] "https://trusted.example" "https://evil.example"
    5 (WireData.env { action := "getItem", ref := "r", key := some "k",
                      value := none, message := none })
  exact ⟨h.1, h.2.1, h.2.2.1 (by decide), h.2.2.2 (by decide)⟩

/-- Claim C5, counterexample: on malformed data both listeners let the
JSON.parse exception escape (the result is an exception, not a handled
no-op), contrary to the claim that no exception propagates out of either
listener. -/
theorem c5_counterexample :
    serverListener lsOps "*" ([] : LSStore) "https://client.example" 0
      (WireData.malformed "not json") = Except.error jsonParseError ∧
    handleMessageEvent 1 [] 1 (WireData.malformed "not json") =
      Except.error jsonParseError :=
  ⟨rfl, rfl⟩

/-- Claim C5, amended: a malformed inbound message is never processed (no
backend call, no response, no callback invocation, no registry change), but
neither listener guards JSON.parse, so on the server side (when the origin
is accepted) and on the client side (when the source matches) the parse
exception escapes the listener; the surrounding event loop, not this code,
is what keeps the process alive.  When the origin is rejected or the source
does not match, the parse is never reached and the listener returns
normally. -/
theorem c5_malformed_message (σ : Type) (ops : StorageOps σ) (st : σ)
    (co evO : String) (src tw src2 : Nat) (x : String) (cbs : Registry) :
    (originAccepts co evO = true →
      serverListener ops co st evO src (WireData.malformed x) = Except.error jsonParseError) ∧
    (originAccepts co evO = false →
      serverListener ops co st evO src (WireData.malformed x) =
        Except.ok (st, [], ["Origin mismatch"], [])) ∧
    handleMessageEvent tw cbs tw (WireData.malformed x) = Except.error jsonParseError ∧
    ((src2 == tw) = false →
      handleMessageEvent tw cbs src2 (WireData.malformed x) = Except.ok (cbs, [], [])) := by
  refine ⟨?_, ?_, ?_, ?_⟩
  · intro hacc
    simp [serverListener, origin_guard_false co evO hacc, parseWire]
  · intro hacc
    simp [serverListener, origin_guard_true co evO hacc]
  · simp [handleMessageEvent, parseWire]
  · intro hsrc
    simp [handleMessageEvent, hsrc]

/-- Witness for the amended claim C5 at concrete inputs. -/
theorem c5_malformed_message_witness :
    serverListener lsOps "*" ([] : LSStore) "https://client.example" 0
      (WireData.malformed "nope") = Except.error jsonParseError ∧
    handleMessageEvent 1 [] 2 (WireData.malformed "nope") = Except.ok ([], [], []) := by
  have h := c5_malformed_message LSStore lsOps [] "*" "https://client.example" 0 1 2 "nope" []
  exact ⟨h.1 (by decide), h.2.2.2 (by decide)⟩

/-- Claim C9: for every inbound message whose source matches the channel
target window and whose data parses, after the client listener runs the
registry holds no entry for the message ref; and when the action is neither
success nor error, no handler is invoked even though the entry is removed. -/
theorem c9_registry_cleared (tw : Nat) (cbs : Registry) (d : WireData) (m : Envelope)
    (hp : parseWire d = some m) :
    ∃ cbs1 i1 l1, handleMessageEvent tw cbs tw d = Except.ok (cbs1, i1, l1) ∧
      lookupCb cbs1 m.ref = none ∧
      (m.action ≠ "frameStorageSuccess" → m.action ≠ "frameStorageError" → i1 = []) := by
  simp only [handleMessageEvent, hp, beq_self_eq_true, if_true]
  refine ⟨_, _, _, rfl, lookupCb_deleteCb_self cbs m.ref, ?_⟩
  intro h1 h2
  have b1 : (m.action == "frameStorageSuccess") = false := beq_eq_false_iff_ne.mpr h1
  have b2 : (m.action == "frameStorageError") = false := beq_eq_false_iff_ne.mpr h2
  cases hl : lookupCb cbs m.ref <;> simp [b1, b2]

/-- Witness for claim C9 at a concrete unknown-action message. -/
theorem c9_registry_cleared_witness :
    ∃ cbs1 i1 l1, handleMessageEvent 1 [("r", 3)] 1
        (WireData.env { action := "bogus", ref := "r", key := none,
                        value := none, message := none }) =
        Except.ok (cbs1, i1, l1) ∧
      lookupCb cbs1 "r" = none ∧
      (("bogus" : String) ≠ "frameStorageSuccess" → ("bogus" : String) ≠ "frameStorageError" →
        i1 = []) :=
  c9_registry_cleared 1 [("r", 3)]
    (WireData.env { action := "bogus", ref := "r", key := none,
                    value := none, message := none }) _ rfl

/-- Claim C6: for each of the six request actions the dispatcher answers a
backend failure with an error envelope carrying the failure message, and a
backend success with a success envelope; every response echoes the request
ref and key verbatim; a parseable message never makes the server listener
throw (backend failures are caught); and the client listener resolves the
handler registered under the response ref with (null, value) on success and
(message, null) on error, removing the entry. -/
theorem c6_failure_and_success_envelopes (σ : Type) (ops : StorageOps σ) (st : σ)
    (m : Envelope) (tw : Nat) (cbs : Registry) (h : Nat) (r : Envelope)
    (co evO : String) (src : Nat) (d : WireData) :
    (m.action = "getItem" →
      (∀ v, ops.getItem st m.key = Except.ok v →
        dispatch ops st m = ⟨st, some (successEnv m (some (jvalOrNull v))), [], ["getItem"]⟩) ∧
      (∀ e, ops.getItem st m.key = Except.error e →
        dispatch ops st m = ⟨st, some (errorEnv m e), [], ["getItem"]⟩)) ∧
    (m.action = "setItem" →
      (∀ st1, ops.setItem st m.key m.value = Except.ok st1 →
        dispatch ops st m = ⟨st1, some (successEnv m (some JVal.null)), [], ["setItem"]⟩) ∧
      (∀ e, ops.setItem st m.key m.value = Except.error e →
        dispatch ops st m = ⟨st, some (errorEnv m e), [], ["setItem"]⟩)) ∧
    (m.action = "removeItem" →
      (∀ st1, ops.removeItem st m.key = Except.ok st1 →
        dispatch ops st m = ⟨st1, some (successEnv m (some JVal.null)), [], ["removeItem"]⟩) ∧
      (∀ e, ops.removeItem st m.key = Except.error e →
        dispatch ops st m = ⟨st, some (errorEnv m e), [], ["removeItem"]⟩)) ∧
    (m.action = "clear" →
      (∀ st1, ops.clearOp st = Except.ok st1 →
        dispatch ops st m = ⟨st1, some (successEnv m none), [], ["clear"]⟩) ∧
      (∀ e, ops.clearOp st = Except.error e →
        dispatch ops st m = ⟨st, some (errorEnv m e), [], ["clear"]⟩)) ∧
    (m.action = "length" →
      (∀ n, ops.lengthOp st = Except.ok n →
        dispatch ops st m =
          ⟨st, some (successEnv m (some (JVal.num (Int.ofNat n)))), [], ["length"]⟩) ∧
      (∀ e, ops.lengthOp st = Except.error e →
        dispatch ops st m = ⟨st, some (errorEnv m e), [], ["length"]⟩)) ∧
    (m.action = "key" →
      (∀ nm, ops.keyOp st m.value = Except.ok nm →
        dispatch ops st m =
          ⟨st, some (successEnv m (some (jvalOrNull (nm.map JVal.str)))), [], ["key"]⟩) ∧
      (∀ e, ops.keyOp st m.value = Except.error e →
        dispatch ops st m = ⟨st, some (errorEnv m e), [], ["key"]⟩)) ∧
    (∀ m2, (dispatch ops st m).resp = some m2 → m2.ref = m.ref ∧ m2.key = m.key) ∧
    (∀ mm, parseWire d = some mm → ∃ out, serverListener ops co st evO src d = Except.ok out) ∧
    (r.action = "frameStorageSuccess" → lookupCb cbs r.ref = some h →
      handleMessageEvent tw cbs tw (WireData.env r) =
        Except.ok (deleteCb cbs r.ref, [⟨h, some JVal.null, r.value⟩], [])) ∧
    (r.action = "frameStorageError" → lookupCb cbs r.ref = some h →
      handleMessageEvent tw cbs tw (WireData.env r) =
        Except.ok (deleteCb cbs r.ref, [⟨h, r.message.map JVal.str, some JVal.null⟩], [])) := by
  refine ⟨?_, ?_, ?_, ?_, ?_, ?_, ?_, ?_, ?_, ?_⟩
  · intro ha
    constructor
    · intro v hv
      simp [dispatch, ha, hv]
    · intro e he
      simp [dispatch, ha, he]
  · intro ha
    constructor
    · intro st1 hv
      simp [dispatch, ha, hv]
    · intro e he
      simp [dispatch, ha, he]
  · intro ha
    constructor
    · intro st1 hv
      simp [dispatch, ha, hv]
    · intro e he
      simp [dispatch, ha, he]
  · intro ha
    constructor
    · intro st1 hv
      simp [dispatch, ha, hv]
    · intro e he
      simp [dispatch, ha, he]
  · intro ha
    constructor
    · intro n hv
      simp [dispatch, ha, hv]
    · intro e he
      simp [dispatch, ha, he]
  · intro ha
    constructor
    · intro nm hv
      simp [dispatch, ha, hv]
    · intro e he
      simp [dispatch, ha, he]
  · intro m2 hm2
    unfold dispatch at hm2
    split_ifs at hm2 <;>
      (split at hm2 <;>
        · simp only [Option.some.injEq] at hm2
          rw [← hm2]
          exact ⟨rfl, rfl⟩)
  · intro mm hmm
    unfold serverListener
    split_ifs with hg
    · exact ⟨_, rfl⟩
    · rw [hmm]
      exact ⟨_, rfl⟩
  · intro ha hl
    simp [handleMessageEvent, parseWire, hl, ha]
  · intro ha hl
    simp [handleMessageEvent, parseWire, hl, ha]

/-- The setItem request used by the C6 witness. -/
def c6setReq : Envelope :=
  { action := "setItem", ref := "r9", key := some "k", value := some (JVal.str "v"),
    message := none }

/-- Witness for claim C6: a backend that always fails with QuotaExceeded
turns a setItem request into an error envelope echoing the ref, and the
client resolves the registered handler with the error message. -/
theorem c6_failure_and_success_envelopes_witness :
    dispatch (failingOps "QuotaExceeded") () c6setReq =
      ⟨(), some (errorEnv c6setReq "QuotaExceeded"), [], ["setItem"]⟩ ∧
    handleMessageEvent 1 [("r9", 7)] 1 (WireData.env (errorEnv c6setReq "QuotaExceeded")) =
      Except.ok ([], [⟨7, some (JVal.str "QuotaExceeded"), some JVal.null⟩], []) := by
  have h := c6_failure_and_success_envelopes Unit (failingOps "QuotaExceeded") () c6setReq
    1 [("r9", 7)] 7 (errorEnv c6setReq "QuotaExceeded") "*" "o" 0
    (WireData.env c6setReq)
  exact ⟨(h.2.1 rfl).2 "QuotaExceeded" rfl, h.2.2.2.2.2.2.2.2.2 rfl rfl⟩

/-- The round-trip scenario of claim C1 wired from the source embeddings: a
setItem issued on a ready channel (no completion handler), the server
processing of its envelope, a getItem for the same key with a handler, the
server processing of that envelope, and the client handling of the two
responses in order.  Produces the handler invocations observed while each
response is handled, or none when some stage deviates from the scenario
shape. -/
def roundTripRun (store : LSStore) (reg : Registry) (co evO chO : String)
    (tw src : Nat) (k : String) (v : JVal) (r1 r2 : String) (cb : Nat) :
    Option (List Invocation × List Invocation) :=
  let a := save tw chO r1 k (some v) none reg
  match serverListener lsOps co store evO src (WireData.env a.2.1.env) with
  | Except.ok (store1, [s1], _, _) =>
      let b := load tw chO r2 k (some cb) a.1
      match serverListener lsOps co store1 evO src (WireData.env b.2.1.env) with
      | Except.ok (_, [s2], _, _) =>
          match handleMessageEvent tw b.1 tw (WireData.env s1.env) with
          | Except.ok (reg3, inv1, _) =>
              match handleMessageEvent tw reg3 tw (WireData.env s2.env) with
              | Except.ok (_, inv2, _) => some (inv1, inv2)
              | Except.error _ => none
          | Except.error _ => none
      | _ => none
  | _ => none

/-- Claim C1: on a ready channel, a setItem for key k with value v followed
by a getItem for k resolves the getItem handler with (null, v): the value
round-trips through the channel unchanged.  The requests are processed by
the dispatcher in order against the backend; the setItem response resolves
no handler (none was registered) and the getItem response resolves the
registered handler with the stored value. -/
theorem c1_roundtrip (store : LSStore) (reg : Registry) (co evO chO : String)
    (tw src : Nat) (k : String) (v : JVal) (r1 r2 : String) (cb : Nat)
    (hacc : originAccepts co evO = true)
    (hfresh : lookupCb reg r1 = none) (hne : r1 ≠ r2) :
    roundTripRun store reg co evO chO tw src k v r1 r2 cb =
      some ([], [⟨cb, some JVal.null, some v⟩]) := by
  have hg := origin_guard_false co evO hacc
  have hns : r2 ≠ r1 := hne.symm
  simp [roundTripRun, save, load, serverListener, parseWire, dispatch, lsOps, jvalOrNull,
    handleMessageEvent, successEnv, hg, lsGet_lsSet_self,
    lookupCb_setCb_ne reg r2 r1 cb hne, lookupCb_deleteCb_ne _ r1 r2 hns,
    lookupCb_setCb_self, hfresh]

/-- Witness for claim C1 at concrete inputs. -/
theorem c1_roundtrip_witness :
    originAccepts "*" "https://page.example" = true ∧
    lookupCb [] "c0" = none ∧
    roundTripRun [] [] "*" "https://page.example" "https://server.example" 1 2 "theme"
      (JVal.str "dark") "c0" "c1" 7 =
      some ([], [⟨7, some JVal.null, some (JVal.str "dark")⟩]) :=
  ⟨rfl, rfl,
    c1_roundtrip [] [] "*" "https://page.example" "https://server.example" 1 2 "theme"
      (JVal.str "dark") "c0" "c1" 7 rfl rfl (by decide)⟩

/-- A channel state in which no bound dispatcher has been set yet (the
transport is not ready). -/
def notReady (s : ChannelState) : Prop :=
  s.bSave = none ∧ s.bLoad = none ∧ s.bEmpty = none ∧ s.bCount = none ∧ s.bKey = none

/-- A channel state whose five bound dispatchers all hold the same bound
context (the transport is ready). -/
def readyWith (s : ChannelState) (ctx : BoundCtx) : Prop :=
  s.bSave = some ctx ∧ s.bLoad = some ctx ∧ s.bEmpty = some ctx ∧
    s.bCount = some ctx ∧ s.bKey = some ctx

/-- Prefix the sent messages and logs of a run outcome. -/
def prependOut (ms : List Sent) (lgs : List String) :
    Except String (ChannelState × Registry × List Sent × List String) →
    Except String (ChannelState × Registry × List Sent × List String)
  | Except.error e => Except.error e
  | Except.ok (s, r, ms2, lgs2) => Except.ok (s, r, ms ++ ms2, lgs ++ lgs2)

theorem prependOut_nil (x : Except String (ChannelState × Registry × List Sent × List String)) :
    prependOut [] [] x = x := by
  cases x with
  | error e => rfl
  | ok y =>
      obtain ⟨a, b, c, d⟩ := y
      simp [prependOut]

theorem prependOut_prependOut (a c : List Sent) (b d : List String)
    (x : Except String (ChannelState × Registry × List Sent × List String)) :
    prependOut a b (prependOut c d x) = prependOut (a ++ c) (b ++ d) x := by
  cases x with
  | error e => rfl
  | ok y =>
      obtain ⟨s, r, ms, lgs⟩ := y
      simp [prependOut]

theorem runCalls_cons_ok {s s1 : ChannelState} {reg reg1 : Registry} {ms : List Sent}
    {lgs : List String} {c : ApiCall} (cs : List ApiCall)
    (h : step s reg c = Except.ok (s1, reg1, ms, lgs)) :
    runCalls s reg (c :: cs) = prependOut ms lgs (runCalls s1 reg1 cs) := by
  rw [runCalls, h]
  show (match runCalls s1 reg1 cs with
    | Except.error e => Except.error e
    | Except.ok (s2, reg2, ms2, lgs2) => Except.ok (s2, reg2, ms ++ ms2, lgs ++ lgs2)) =
    prependOut ms lgs (runCalls s1 reg1 cs)
  cases hr : runCalls s1 reg1 cs with
  | error e => rfl
  | ok y =>
      obtain ⟨a, b, c2, d2⟩ := y
      rfl

theorem runCalls_cons_err {s : ChannelState} {reg : Registry} {e : String} {c : ApiCall}
    (cs : List ApiCall) (h : step s reg c = Except.error e) :
    runCalls s reg (c :: cs) = Except.error e := by
  rw [runCalls, h]

theorem step_notReady (s : ChannelState) (reg : Registry) (q : QueuedOp) (h : notReady s) :
    step s reg (opCall q) =
      Except.ok ({ s with buffer := s.buffer ++ [q] }, reg, [], []) := by
  obtain ⟨h1, h2, h3, h4, h5⟩ := h
  cases q <;> simp [step, opCall, h1, h2, h3, h4, h5]

theorem step_ready (s : ChannelState) (ctx : BoundCtx) (reg : Registry) (q : QueuedOp)
    (h : readyWith s ctx) :
    step s reg (opCall q) =
      Except.ok ({ s with guidCtr := s.guidCtr + 1 },
        (dispatchOp ctx (guidName s.guidCtr) q reg).1,
        [(dispatchOp ctx (guidName s.guidCtr) q reg).2.1],
        (dispatchOp ctx (guidName s.guidCtr) q reg).2.2) := by
  obtain ⟨h1, h2, h3, h4, h5⟩ := h
  cases q <;> simp [step, opCall, dispatchOp, h1, h2, h3, h4, h5]

/-- The channel state right after the onload handler ran: window captured,
listener attached, all five dispatchers bound with the pinned channel
origin, buffer emptied, and the guid counter advanced to the given value. -/
def onloadState (s : ChannelState) (w : Nat) (ctr : Nat) : ChannelState :=
  { s with
    targetWindow := some w, listenerAttached := true,
    bSave := some ⟨w, s.channelOrigin⟩, bLoad := some ⟨w, s.channelOrigin⟩,
    bEmpty := some ⟨w, s.channelOrigin⟩, bCount := some ⟨w, s.channelOrigin⟩,
    bKey := some ⟨w, s.channelOrigin⟩, buffer := [], guidCtr := ctr }

theorem step_onload (s : ChannelState) (reg : Registry) (w : Nat) :
    step s reg (ApiCall.onload w) =
      Except.ok (onloadState s w (drain ⟨w, s.channelOrigin⟩ s.guidCtr reg s.buffer).1,
        (drain ⟨w, s.channelOrigin⟩ s.guidCtr reg s.buffer).2.1,
        (drain ⟨w, s.channelOrigin⟩ s.guidCtr reg s.buffer).2.2.1,
        (drain ⟨w, s.channelOrigin⟩ s.guidCtr reg s.buffer).2.2.2) := rfl

theorem runCalls_notReady (qs : List QueuedOp) (s : ChannelState) (reg : Registry)
    (rest : List ApiCall) (h : notReady s) :
    runCalls s reg (qs.map opCall ++ rest) =
      runCalls { s with buffer := s.buffer ++ qs } reg rest := by
  induction qs generalizing s with
  | nil => simp
  | cons q qs ih =>
      rw [List.map_cons, List.cons_append,
        runCalls_cons_ok _ (step_notReady s reg q h), prependOut_nil]
      have hnr : notReady { s with buffer := s.buffer ++ [q] } := h
      rw [ih _ hnr]
      simp [List.append_assoc]

theorem runCalls_ready (qs : List QueuedOp) (s : ChannelState) (ctx : BoundCtx)
    (reg : Registry) (rest : List ApiCall) (h : readyWith s ctx) :
    runCalls s reg (qs.map opCall ++ rest) =
      prependOut (drain ctx s.guidCtr reg qs).2.2.1 (drain ctx s.guidCtr reg qs).2.2.2
        (runCalls { s with guidCtr := (drain ctx s.guidCtr reg qs).1 }
          (drain ctx s.guidCtr reg qs).2.1 rest) := by
  induction qs generalizing s reg with
  | nil => simp [drain, prependOut_nil]
  | cons q qs ih =>
      rw [List.map_cons, List.cons_append,
        runCalls_cons_ok _ (step_ready s ctx reg q h)]
      have hr1 : readyWith { s with guidCtr := s.guidCtr + 1 } ctx := h
      rw [ih _ _ hr1]
      simp [drain, prependOut_prependOut]

theorem drain_sends_length (ctx : BoundCtx) (ctr : Nat) (reg : Registry)
    (qs : List QueuedOp) :
    (drain ctx ctr reg qs).2.2.1.length = qs.length := by
  induction qs generalizing ctr reg with
  | nil => rfl
  | cons q qs ih => simp [drain, ih]

/-- Claim C4: operations issued before the transport is ready are all
buffered (the run sends nothing and only fills the buffer in arrival
order), and once the readiness signal fires the buffered operations are
dispatched in exactly the order they were issued, each exactly as if it had
been called directly, and all of them before any operation issued after
readiness: a run that buffers pre, receives onload and then issues post is
equal, observably and in final state, to the run that receives onload first
and then issues pre followed by post directly. -/
theorem c4_buffered_fifo (p u : String) (reg : Registry) (w : Nat)
    (pre post : List QueuedOp) :
    runCalls (initState p u) reg
        (pre.map opCall ++ ApiCall.onload w :: post.map opCall) =
      runCalls (initState p u) reg (ApiCall.onload w :: (pre ++ post).map opCall) ∧
    runCalls (initState p u) reg (pre.map opCall) =
      Except.ok ({ initState p u with buffer := pre }, reg, [], []) := by
  have hnr : notReady (initState p u) := ⟨rfl, rfl, rfl, rfl, rfl⟩
  constructor
  · rw [runCalls_notReady pre _ _ _ hnr,
      runCalls_cons_ok _ (step_onload _ reg w),
      runCalls_cons_ok _ (step_onload _ reg w),
      List.map_append,
      runCalls_ready pre _ ⟨w, (initState p u).channelOrigin⟩ _ _ ⟨rfl, rfl, rfl, rfl, rfl⟩]
    simp [initState, onloadState, drain, prependOut_nil]
  · have h2 := runCalls_notReady pre (initState p u) reg [] hnr
    rw [List.append_nil] at h2
    rw [h2]
    rfl

/-- Claim C7, counterexample: after the readiness signal has been
processed, destroy nulls the save and load dispatchers, so a later getItem
pushes into the (now inert) queue again: the queue is repopulated within
the lifetime of the channel, and the call does not send its envelope
directly. -/
theorem c7_counterexample :
    ∃ s1 reg1 ms lgs,
      runCalls (initState "http://page.example" "frame.html") []
          [ApiCall.onload 1, ApiCall.destroy, ApiCall.getItem "k" none] =
        Except.ok (s1, reg1, ms, lgs) ∧
      s1.buffer = [QueuedOp.qload "k" none] ∧ ms = [] := by
  exact ⟨_, _, _, _, rfl, rfl, rfl⟩

/-- Claim C7, amended: after the readiness signal, and as long as destroy
has not been called, every client operation bypasses the queue and sends
its envelope directly: a run of plain operations from a ready state leaves
the buffer exactly as it was and sends exactly one envelope per
operation.  (After destroy, getItem and setItem find their dispatchers
nulled and re-buffer, as the counterexample shows.) -/
theorem c7_queue_bypassed_after_ready (s : ChannelState) (ctx : BoundCtx) (reg : Registry)
    (qs : List QueuedOp) (s2 : ChannelState) (reg2 : Registry) (ms : List Sent)
    (lgs : List String) (h : readyWith s ctx)
    (hrun : runCalls s reg (qs.map opCall) = Except.ok (s2, reg2, ms, lgs)) :
    s2.buffer = s.buffer ∧ ms.length = qs.length := by
  have he := runCalls_ready qs s ctx reg [] h
  rw [List.append_nil] at he
  rw [he] at hrun
  rw [runCalls] at hrun
  simp only [prependOut, Except.ok.injEq, Prod.mk.injEq] at hrun
  obtain ⟨h1, h2, h3, h4⟩ := hrun
  constructor
  · rw [← h1]
  · rw [← h3]
    simp [drain_sends_length]

/-- The ready channel state used by the C7 witness. -/
def c7readyState : ChannelState :=
  { rootPresent := true, domRootAttached := true, targetWindow := some 1,
    listenerAttached := true, bSave := some ⟨1, "http://page.example"⟩,
    bLoad := some ⟨1, "http://page.example"⟩, bEmpty := some ⟨1, "http://page.example"⟩,
    bCount := some ⟨1, "http://page.example"⟩, bKey := some ⟨1, "http://page.example"⟩,
    buffer := [], guidCtr := 0, channelOrigin := "http://page.example" }

/-- Witness for the amended claim C7 at a concrete ready state. -/
theorem c7_queue_bypassed_after_ready_witness :
    ({ c7readyState with guidCtr := 1 }).buffer = c7readyState.buffer ∧
    ([⟨1, { action := "getItem", ref := "c0", key := some "k", value := none,
            message := none }, "http://page.example"⟩] : List Sent).length =
      ([QueuedOp.qload "k" (some 5)] : List QueuedOp).length :=
  c7_queue_bypassed_after_ready c7readyState ⟨1, "http://page.example"⟩ []
    [QueuedOp.qload "k" (some 5)] _ _ _ _ ⟨rfl, rfl, rfl, rfl, rfl⟩ rfl

/-- The safety invariant destroy relies on: a still-present root div is
still attached to the document body (so removeChild cannot throw), and a
channel that never captured a target window never attached its listener. -/
def cInv (s : ChannelState) : Prop :=
  (s.rootPresent = true → s.domRootAttached = true) ∧
  (s.targetWindow = none → s.listenerAttached = false)

theorem step_destroy_eq (s : ChannelState) (reg : Registry)
    (hdom : s.rootPresent = true → s.domRootAttached = true) :
    step s reg ApiCall.destroy = Except.ok (destroyedState s, reg, [], []) := by
  rw [step]
  have hg : (s.rootPresent && !s.domRootAttached) = false := by
    cases hr : s.rootPresent
    · rfl
    · rw [hdom hr]
      rfl
  rw [if_neg (by simp [hg])]

theorem destroyedState_spec (s : ChannelState) (h : cInv s) :
    (destroyedState s).rootPresent = false ∧ (destroyedState s).targetWindow = none ∧
    (destroyedState s).listenerAttached = false ∧ (destroyedState s).bSave = none ∧
    (destroyedState s).bLoad = none := by
  obtain ⟨-, h2⟩ := h
  cases hr : s.rootPresent <;> cases htw : s.targetWindow <;>
    simp_all [destroyedState]

theorem destroyedState_fixpoint (d : ChannelState) (h1 : d.rootPresent = false)
    (h2 : d.targetWindow = none) (h3 : d.bSave = none) (h4 : d.bLoad = none) :
    destroyedState d = d := by
  cases d
  simp_all [destroyedState]

theorem step_cInv (s : ChannelState) (reg : Registry) (c : ApiCall)
    (s1 : ChannelState) (reg1 : Registry) (ms : List Sent) (lgs : List String)
    (h : cInv s) (hs : step s reg c = Except.ok (s1, reg1, ms, lgs)) : cInv s1 := by
  cases c with
  | getItem k cb =>
      cases hb : s.bLoad <;>
        (simp only [step, hb, Except.ok.injEq, Prod.mk.injEq] at hs
         rw [← hs.1]
         exact h)
  | setItem k v cb =>
      cases hb : s.bSave <;>
        (simp only [step, hb, Except.ok.injEq, Prod.mk.injEq] at hs
         rw [← hs.1]
         exact h)
  | clearC cb =>
      cases hb : s.bEmpty <;>
        (simp only [step, hb, Except.ok.injEq, Prod.mk.injEq] at hs
         rw [← hs.1]
         exact h)
  | lengthC cb =>
      cases hb : s.bCount <;>
        (simp only [step, hb, Except.ok.injEq, Prod.mk.injEq] at hs
         rw [← hs.1]
         exact h)
  | keyC i cb =>
      cases hb : s.bKey <;>
        (simp only [step, hb, Except.ok.injEq, Prod.mk.injEq] at hs
         rw [← hs.1]
         exact h)
  | onload w =>
      simp only [step, Except.ok.injEq, Prod.mk.injEq] at hs
      rw [← hs.1]
      exact ⟨h.1, fun htw => nomatch htw⟩
  | destroy =>
      rw [step_destroy_eq s reg h.1] at hs
      simp only [Except.ok.injEq, Prod.mk.injEq] at hs
      obtain ⟨hs1, -⟩ := hs
      subst hs1
      obtain ⟨hroot, -, hlist, -, -⟩ := destroyedState_spec s h
      exact ⟨fun hc => absurd hc (by simp [hroot]), fun _ => hlist⟩

theorem runCalls_cInv (cs : List ApiCall) (s : ChannelState) (reg : Registry)
    (s1 : ChannelState) (reg1 : Registry) (ms : List Sent) (lgs : List String)
    (h : cInv s) (hr : runCalls s reg cs = Except.ok (s1, reg1, ms, lgs)) : cInv s1 := by
  induction cs generalizing s reg ms lgs with
  | nil =>
      rw [runCalls] at hr
      simp only [Except.ok.injEq, Prod.mk.injEq] at hr
      rw [← hr.1]
      exact h
  | cons c cs ih =>
      cases hstep : step s reg c with
      | error e =>
          rw [runCalls_cons_err cs hstep] at hr
          cases hr
      | ok x =>
          obtain ⟨a, b, m2, l2⟩ := x
          rw [runCalls_cons_ok cs hstep] at hr
          cases hrun : runCalls a b cs with
          | error e =>
              rw [hrun] at hr
              cases hr
          | ok y =>
              obtain ⟨a2, b2, m3, l3⟩ := y
              rw [hrun] at hr
              simp only [prependOut, Except.ok.injEq, Prod.mk.injEq] at hr
              have hca := step_cInv s reg c a b m2 l2 h hstep
              rw [hr.1, hr.2.1] at hrun
              exact ih a b m3 l3 hca hrun

/-- Claim C8: from any state a channel can reach from construction, destroy
never throws, and calling it again returns the same state and again does
not throw (so any number of calls is safe); the first call leaves the
listener detached and the transport handle dropped (together with the save
and load dispatchers the source also nulls). -/
theorem c8_destroy_idempotent (p u : String) (reg : Registry) (cs : List ApiCall)
    (s : ChannelState) (reg1 : Registry) (ms : List Sent) (lgs : List String)
    (h : runCalls (initState p u) reg cs = Except.ok (s, reg1, ms, lgs)) :
    ∃ s2, step s reg1 ApiCall.destroy = Except.ok (s2, reg1, [], []) ∧
      step s2 reg1 ApiCall.destroy = Except.ok (s2, reg1, [], []) ∧
      s2.listenerAttached = false ∧ s2.targetWindow = none ∧
      s2.bSave = none ∧ s2.bLoad = none := by
  have hinv : cInv s := runCalls_cInv cs (initState p u) reg s reg1 ms lgs
    ⟨fun _ => rfl, fun _ => rfl⟩ h
  obtain ⟨hroot, htw, hlist, hbs, hbl⟩ := destroyedState_spec s hinv
  refine ⟨destroyedState s, step_destroy_eq s reg1 hinv.1, ?_, hlist, htw, hbs, hbl⟩
  rw [step_destroy_eq (destroyedState s) reg1 (fun hc => absurd hc (by simp [hroot])),
    destroyedState_fixpoint (destroyedState s) hroot htw hbs hbl]

/-- Witness for claim C8 on a freshly constructed channel. -/
theorem c8_destroy_idempotent_witness :
    ∃ s2, step (initState "http://page.example" "frame.html") [] ApiCall.destroy =
        Except.ok (s2, [], [], []) ∧
      step s2 [] ApiCall.destroy = Except.ok (s2, [], [], []) ∧
      s2.listenerAttached = false ∧ s2.targetWindow = none ∧
      s2.bSave = none ∧ s2.bLoad = none :=
  c8_destroy_idempotent "http://page.example" "frame.html" [] []
    (initState "http://page.example" "frame.html") [] [] [] rfl

theorem destroyedState_channelOrigin (s : ChannelState) :
    (destroyedState s).channelOrigin = s.channelOrigin := by
  cases s
  simp only [destroyedState]
  split_ifs <;> rfl

theorem destroyedState_bEmpty (s : ChannelState) :
    (destroyedState s).bEmpty = s.bEmpty := by
  cases s
  simp only [destroyedState]
  split_ifs <;> rfl

theorem destroyedState_bCount (s : ChannelState) :
    (destroyedState s).bCount = s.bCount := by
  cases s
  simp only [destroyedState]
  split_ifs <;> rfl

theorem destroyedState_bKey (s : ChannelState) :
    (destroyedState s).bKey = s.bKey := by
  cases s
  simp only [destroyedState]
  split_ifs <;> rfl

theorem destroyedState_bSave (s : ChannelState) :
    (destroyedState s).bSave = none := rfl

theorem destroyedState_bLoad (s : ChannelState) :
    (destroyedState s).bLoad = none := rfl

/-- The pinned channel origin and every bound dispatcher context of a state
carry the given origin, so every envelope the state can send is addressed
to it. -/
def originPinned (p : String) (s : ChannelState) : Prop :=
  s.channelOrigin = p ∧
  (∀ ctx, s.bSave = some ctx → ctx.origin = p) ∧
  (∀ ctx, s.bLoad = some ctx → ctx.origin = p) ∧
  (∀ ctx, s.bEmpty = some ctx → ctx.origin = p) ∧
  (∀ ctx, s.bCount = some ctx → ctx.origin = p) ∧
  (∀ ctx, s.bKey = some ctx → ctx.origin = p)

theorem dispatchOp_origin (ctx : BoundCtx) (ref : String) (q : QueuedOp) (reg : Registry) :
    (dispatchOp ctx ref q reg).2.1.origin = ctx.origin := by
  cases q <;> rfl

theorem drain_origin (ctx : BoundCtx) (ctr : Nat) (reg : Registry) (qs : List QueuedOp) :
    ∀ m ∈ (drain ctx ctr reg qs).2.2.1, m.origin = ctx.origin := by
  induction qs generalizing ctr reg with
  | nil => intro m hm; cases hm
  | cons q qs ih =>
      intro m hm
      simp only [drain, List.mem_cons] at hm
      rcases hm with hm | hm
      · rw [hm]
        exact dispatchOp_origin ctx (guidName ctr) q reg
      · exact ih _ _ m hm

theorem step_originPinned (p : String) (s : ChannelState) (reg : Registry) (c : ApiCall)
    (s1 : ChannelState) (reg1 : Registry) (ms : List Sent) (lgs : List String)
    (h : originPinned p s) (hs : step s reg c = Except.ok (s1, reg1, ms, lgs)) :
    originPinned p s1 ∧ ∀ m ∈ ms, m.origin = p := by
  obtain ⟨hp1, hp2, hp3, hp4, hp5, hp6⟩ := h
  cases c with
  | getItem k cb =>
      cases hb : s.bLoad with
      | none =>
          simp only [step, hb, Except.ok.injEq, Prod.mk.injEq] at hs
          obtain ⟨h1, -, h3, -⟩ := hs
          subst h1; subst h3
          refine ⟨⟨hp1, hp2, ?_, hp4, hp5, hp6⟩, by simp⟩
          intro c2 hc2
          exact nomatch hc2
      | some ctx =>
          simp only [step, hb, Except.ok.injEq, Prod.mk.injEq] at hs
          obtain ⟨h1, -, h3, -⟩ := hs
          subst h1; subst h3
          refine ⟨⟨hp1, hp2, ?_, hp4, hp5, hp6⟩, ?_⟩
          · intro c2 hc2
            injection hc2 with h4
            rw [← h4]
            exact hp3 ctx hb
          · intro m hm
            simp only [List.mem_singleton] at hm
            rw [hm]
            exact hp3 ctx hb
  | setItem k v cb =>
      cases hb : s.bSave with
      | none =>
          simp only [step, hb, Except.ok.injEq, Prod.mk.injEq] at hs
          obtain ⟨h1, -, h3, -⟩ := hs
          subst h1; subst h3
          refine ⟨⟨hp1, ?_, hp3, hp4, hp5, hp6⟩, by simp⟩
          intro c2 hc2
          exact nomatch hc2
      | some ctx =>
          simp only [step, hb, Except.ok.injEq, Prod.mk.injEq] at hs
          obtain ⟨h1, -, h3, -⟩ := hs
          subst h1; subst h3
          refine ⟨⟨hp1, ?_, hp3, hp4, hp5, hp6⟩, ?_⟩
          · intro c2 hc2
            injection hc2 with h4
            rw [← h4]
            exact hp2 ctx hb
          · intro m hm
            simp only [List.mem_singleton] at hm
            rw [hm]
            exact hp2 ctx hb
  | clearC cb =>
      cases hb : s.bEmpty with
      | none =>
          simp only [step, hb, Except.ok.injEq, Prod.mk.injEq] at hs
          obtain ⟨h1, -, h3, -⟩ := hs
          subst h1; subst h3
          refine ⟨⟨hp1, hp2, hp3, ?_, hp5, hp6⟩, by simp⟩
          intro c2 hc2
          exact nomatch hc2
      | some ctx =>
          simp only [step, hb, Except.ok.injEq, Prod.mk.injEq] at hs
          obtain ⟨h1, -, h3, -⟩ := hs
          subst h1; subst h3
          refine ⟨⟨hp1, hp2, hp3, ?_, hp5, hp6⟩, ?_⟩
          · intro c2 hc2
            injection hc2 with h4
            rw [← h4]
            exact hp4 ctx hb
          · intro m hm
            simp only [List.mem_singleton] at hm
            rw [hm]
            exact hp4 ctx hb
  | lengthC cb =>
      cases hb : s.bCount with
      | none =>
          simp only [step, hb, Except.ok.injEq, Prod.mk.injEq] at hs
          obtain ⟨h1, -, h3, -⟩ := hs
          subst h1; subst h3
          refine ⟨⟨hp1, hp2, hp3, hp4, ?_, hp6⟩, by simp⟩
          intro c2 hc2
          exact nomatch hc2
      | some ctx =>
          simp only [step, hb, Except.ok.injEq, Prod.mk.injEq] at hs
          obtain ⟨h1, -, h3, -⟩ := hs
          subst h1; subst h3
          refine ⟨⟨hp1, hp2, hp3, hp4, ?_, hp6⟩, ?_⟩
          · intro c2 hc2
            injection hc2 with h4
            rw [← h4]
            exact hp5 ctx hb
          · intro m hm
            simp only [List.mem_singleton] at hm
            rw [hm]
            exact hp5 ctx hb
  | keyC i cb =>
      cases hb : s.bKey with
      | none =>
          simp only [step, hb, Except.ok.injEq, Prod.mk.injEq] at hs
          obtain ⟨h1, -, h3, -⟩ := hs
          subst h1; subst h3
          refine ⟨⟨hp1, hp2, hp3, hp4, hp5, ?_⟩, by simp⟩
          intro c2 hc2
          exact nomatch hc2
      | some ctx =>
          simp only [step, hb, Except.ok.injEq, Prod.mk.injEq] at hs
          obtain ⟨h1, -, h3, -⟩ := hs
          subst h1; subst h3
          refine ⟨⟨hp1, hp2, hp3, hp4, hp5, ?_⟩, ?_⟩
          · intro c2 hc2
            injection hc2 with h4
            rw [← h4]
            exact hp6 ctx hb
          · intro m hm
            simp only [List.mem_singleton] at hm
            rw [hm]
            exact hp6 ctx hb
  | onload w =>
      rw [step_onload] at hs
      simp only [Except.ok.injEq, Prod.mk.injEq] at hs
      obtain ⟨h1, -, h3, -⟩ := hs
      subst h1; subst h3
      constructor
      · refine ⟨hp1, ?_, ?_, ?_, ?_, ?_⟩ <;>
          (intro ctx hctx
           injection hctx with h4
           rw [← h4]
           exact hp1)
      · intro m hm
        exact (drain_origin ⟨w, s.channelOrigin⟩ s.guidCtr reg s.buffer m hm).trans hp1
  | destroy =>
      rw [step] at hs
      by_cases hg : (s.rootPresent && !s.domRootAttached) = true
      · rw [if_pos hg] at hs
        cases hs
      · rw [if_neg hg] at hs
        simp only [Except.ok.injEq, Prod.mk.injEq] at hs
        obtain ⟨h1, -, h3, -⟩ := hs
        subst h1; subst h3
        refine ⟨⟨(destroyedState_channelOrigin s).trans hp1, ?_, ?_, ?_, ?_, ?_⟩, by simp⟩
        · intro ctx hctx
          rw [destroyedState_bSave] at hctx
          cases hctx
        · intro ctx hctx
          rw [destroyedState_bLoad] at hctx
          cases hctx
        · intro ctx hctx
          rw [destroyedState_bEmpty] at hctx
          exact hp4 ctx hctx
        · intro ctx hctx
          rw [destroyedState_bCount] at hctx
          exact hp5 ctx hctx
        · intro ctx hctx
          rw [destroyedState_bKey] at hctx
          exact hp6 ctx hctx

theorem runCalls_originPinned (p : String) (cs : List ApiCall) (s : ChannelState)
    (reg : Registry) (s1 : ChannelState) (reg1 : Registry) (ms : List Sent)
    (lgs : List String) (h : originPinned p s)
    (hr : runCalls s reg cs = Except.ok (s1, reg1, ms, lgs)) :
    originPinned p s1 ∧ ∀ m ∈ ms, m.origin = p := by
  induction cs generalizing s reg ms lgs with
  | nil =>
      rw [runCalls] at hr
      simp only [Except.ok.injEq, Prod.mk.injEq] at hr
      obtain ⟨h1, -, h3, -⟩ := hr
      subst h1; subst h3
      exact ⟨h, by simp⟩
  | cons c cs ih =>
      cases hstep : step s reg c with
      | error e =>
          rw [runCalls_cons_err cs hstep] at hr
          cases hr
      | ok x =>
          obtain ⟨a, b, m2, l2⟩ := x
          rw [runCalls_cons_ok cs hstep] at hr
          cases hrun : runCalls a b cs with
          | error e =>
              rw [hrun] at hr
              cases hr
          | ok y =>
              obtain ⟨a2, b2, m3, l3⟩ := y
              rw [hrun] at hr
              simp only [prependOut, Except.ok.injEq, Prod.mk.injEq] at hr
              obtain ⟨h1, h2, h3, -⟩ := hr
              have hstep2 := step_originPinned p s reg c a b m2 l2 h hstep
              rw [h1, h2] at hrun
              have hrec := ih a b m3 l3 hstep2.1 hrun
              subst h3
              refine ⟨hrec.1, ?_⟩
              intro m hm
              rw [List.mem_append] at hm
              rcases hm with hm | hm
              · exact hstep2.2 m hm
              · exact hrec.2 m hm

/-- Claim C10: when the remote address does not match the absolute http or
https url pattern, the pinned channel origin falls back to the own page
origin, and every envelope a channel constructed from that address ever
sends is addressed to that origin. -/
theorem c10_origin_fallback (p u : String) (reg : Registry) (cs : List ApiCall)
    (s : ChannelState) (reg1 : Registry) (ms : List Sent) (lgs : List String)
    (hnm : matchChannelOrigin u = none)
    (h : runCalls (initState p u) reg cs = Except.ok (s, reg1, ms, lgs)) :
    (initState p u).channelOrigin = p ∧ ∀ m ∈ ms, m.origin = p := by
  have hco : (initState p u).channelOrigin = p := by
    simp [initState, channelOriginOf, hnm]
  refine ⟨hco, ?_⟩
  have hpin : originPinned p (initState p u) := by
    refine ⟨hco, ?_, ?_, ?_, ?_, ?_⟩ <;>
      (intro ctx hctx
       exact nomatch hctx)
  exact (runCalls_originPinned p cs (initState p u) reg s reg1 ms lgs hpin h).2

/-- Witness for claim C10: a relative channel url pins the page origin and
a getItem sent on the ready channel is addressed to it. -/
theorem c10_origin_fallback_witness :
    (initState "http://page.example" "frame.html").channelOrigin = "http://page.example" ∧
    ∀ m ∈ ([⟨1, { action := "getItem", ref := "c0", key := some "k", value := none,
                  message := none }, "http://page.example"⟩] : List Sent),
      m.origin = "http://page.example" :=
  c10_origin_fallback "http://page.example" "frame.html" []
    [ApiCall.onload 1, ApiCall.getItem "k" none] _ _ _ _ rfl rfl

end FrameStorage
